import Mathlib

/-!
Verification of the video ingestion and playback-resolution core of the
AI-toolbox video catalog application.

The development shallowly embeds, from the TypeScript sources:
* the chunked client-side upload encoder (`handleFileChange` in
  `client/src/components/admin/video-form.tsx`), together with a character-level
  model of the base64 coding performed by `FileReader.readAsDataURL`;
* the metadata validator (`insertVideoSchema` in `shared/schema.ts` and the
  client-side `formSchema` in `video-form.tsx`);
* the ingestion orchestrator (`DatabaseStorage` in `server/storage.ts`:
  `getVideo`, `createVideo`, `updateVideo`, `deleteVideo`) over an explicit
  state consisting of the record rows and the blob entries of the two external
  store collaborators.

Machine integers are modelled as `Nat`/`Int`; bytes are `Nat` values below 256.
-/

namespace VidCatalog

/-! ## Base64 coding

`FileReader.readAsDataURL` base64-encodes a blob and yields
`data:<mime>;base64,<payload>`; the server decodes with `Buffer.from(_, 'base64')`.
We model RFC 4648 base64 over byte lists: `encodeB64` produces the padded
character stream for one blob, `decodeB64` is the (strict) inverse.
-/

def b64Alphabet : List Char :=
  "ABCDEFGHIJKLMNOPQRSTUVWXYZabcdefghijklmnopqrstuvwxyz0123456789+/".data

def b64Char (n : Nat) : Char := b64Alphabet.getD n '?'

def b64Index (c : Char) : Option Nat := b64Alphabet.findIdx? (fun x => x == c)

/-- Sextet 1 of a 3-byte group: the high six bits of byte `a`. -/
def enc1 (a : Nat) : Nat := a / 4 % 64

/-- Sextet 2: low two bits of `a` and high four bits of `b`. -/
def enc2 (a b : Nat) : Nat := a % 4 * 16 + b / 16 % 16

/-- Sextet 3: low four bits of `b` and high two bits of `c`. -/
def enc3 (b c : Nat) : Nat := b % 16 * 4 + c / 64 % 4

/-- Sextet 4: the low six bits of byte `c`. -/
def enc4 (c : Nat) : Nat := c % 64

/-- Padded base64 encoding of one byte list, as produced for one blob by
`FileReader.readAsDataURL` (after the `data:...;base64,` marker). -/
def encodeB64 : List Nat → List Char
  | [] => []
  | [a] => [b64Char (enc1 a), b64Char (a % 4 * 16), '=', '=']
  | [a, b] => [b64Char (enc1 a), b64Char (enc2 a b), b64Char (b % 16 * 4), '=']
  | a :: b :: c :: rest =>
      b64Char (enc1 a) :: b64Char (enc2 a b) :: b64Char (enc3 b c) ::
        b64Char (enc4 c) :: encodeB64 rest

/-- Strict base64 decoding: four-character groups, `=` padding admitted only at
the very end of the stream. Returns `none` on malformed input. -/
def decodeB64 : List Char → Option (List Nat)
  | [] => some []
  | c1 :: c2 :: c3 :: c4 :: rest =>
    match b64Index c1, b64Index c2 with
    | some n1, some n2 =>
      if c3 = '=' then
        if c4 = '=' ∧ rest = [] then some [n1 * 4 + n2 / 16] else none
      else
        match b64Index c3 with
        | some n3 =>
          if c4 = '=' then
            if rest = [] then some [n1 * 4 + n2 / 16, n2 % 16 * 16 + n3 / 4] else none
          else
            match b64Index c4 with
            | some n4 =>
              match decodeB64 rest with
              | some tail =>
                  some ([n1 * 4 + n2 / 16, n2 % 16 * 16 + n3 / 4, n3 % 4 * 64 + n4] ++ tail)
              | none => none
            | none => none
        | none => none
    | _, _ => none
  | _ => none

/-! ## Chunked upload encoder (`handleFileChange`)

The handler slices the file into `CHUNK_SIZE` pieces, reads each piece with
`readAsDataURL`, keeps the data-URL format marker of the first piece only, and
appends `result.split('base64,')[1]` for every later piece; on completion it
stores `base64Data.split(",")[1]` as the `encodedData` payload.  Since the
base64 alphabet contains neither `,` nor `;`, that final split strips exactly
the single leading marker, so the payload is the concatenation of the per-chunk
base64 encodings, which `encodeFileChunks` computes directly.  A zero-size file
still performs one read (of the empty slice).
-/

def CHUNK_SIZE : Nat := 2 * 1024 * 1024

/-- `Math.ceil(file.size / CHUNK_SIZE)`. -/
def numChunks (size : Nat) : Nat := (size + CHUNK_SIZE - 1) / CHUNK_SIZE

/-- The `encodedData` payload produced by `handleFileChange` for a file with the
given bytes: per-chunk base64 encodings, concatenated in file order. -/
def encodeFileChunks (file : List Nat) : List Char :=
  if _h : CHUNK_SIZE < file.length then
    encodeB64 (file.take CHUNK_SIZE) ++ encodeFileChunks (file.drop CHUNK_SIZE)
  else
    encodeB64 file
termination_by file.length
decreasing_by
  simp only [List.length_drop]
  have : 0 < CHUNK_SIZE := by decide
  omega

/-- The successive values passed to `setUploadProgress`, one per chunk read:
`(processedChunks / chunks) * 100`.  (For a zero-size file the single emitted
value is `(1 / 0) * 100`; JavaScript yields `Infinity` there, which has no
rational counterpart, so theorems about this list assume a non-empty file.) -/
def progressEmits (size : Nat) : List ℚ :=
  (List.range (max (numChunks size) 1)).map
    (fun i : Nat => (((i : ℚ) + 1) / (numChunks size : ℚ)) * 100)

/-- A concrete two-chunk file: one chunk boundary plus one extra byte. -/
def twoChunkFile : List Nat := List.replicate (CHUNK_SIZE + 1) 0

/-! ## Metadata validator

`insertVideoSchema` (`shared/schema.ts`) gates persistence on the server; the
client form additionally runs `formSchema = insertVideoSchema.superRefine(...)`
(`video-form.tsx`).  The base object parse collects one issue per failing field
check.  zod skips a refinement only when the inner parse *aborted* on a
type-level failure (missing key, wrong type); a failed check such as `min(1)`
on a present string merely marks the parse *dirty*, and refinements still run
on the parsed value, their issues appended after the inner ones.  A well-shaped
`Candidate` has every key present and well typed, so its parse is never
aborted and the refinements always run.
-/

/-- A JavaScript `Date` value as the validator produces it: either constructed
from a string by `new Date(str)` (the zod union's first branch) or an arbitrary
pre-existing `Date` (modelled by its epoch value). -/
inductive DateV where
  | ofString (s : String)
  | ofEpoch (n : Int)
deriving DecidableEq

/-- `Date.prototype.toISOString`, a JavaScript runtime builtin (external to the
repository); modelled as an injective placeholder rendering, since no claim
inspects the concrete ISO text. -/
def toISOString : DateV → String
  | .ofString s => "iso:" ++ s
  | .ofEpoch n => "iso-epoch:" ++ toString n

/-- The upload payload object `{ data, filename }` (`data` is the base64 text
produced by the chunked encoder). -/
structure VideoDataPayload where
  data : String
  filename : String
deriving DecidableEq

/-- The `videoDate` input shape accepted by the zod union:
a string, a `Date`, or `null`. -/
inductive DateInput where
  | str (s : String)
  | date (d : DateV)
  | null
deriving DecidableEq

/-- A well-shaped candidate record, as handed to `insertVideoSchema.parse`. -/
structure Candidate where
  title : String
  description : String
  url : Option String
  videoData : Option VideoDataPayload
  thumbnail : String
  platform : String
  duration : Int
  transcript : String
  tags : List String
  videoDate : DateInput
deriving DecidableEq

/-- One zod issue: the offending path (empty for object-level refinements) and
its message. -/
structure Issue where
  path : List String
  message : String
deriving DecidableEq

/-- The validated record (`InsertVideo`): the zod output type, with
`transcript` transformed and `videoDate` parsed. -/
structure InsertVideo where
  title : String
  description : String
  url : Option String
  videoData : Option VideoDataPayload
  thumbnail : String
  platform : String
  duration : Int
  transcript : String
  tags : List String
  videoDate : Option DateV
deriving DecidableEq

/-- `text.replace(/\r\n/g, '\n')`: global leftmost replacement of CRLF pairs. -/
def normalizeCRLF : List Char → List Char
  | [] => []
  | '\r' :: '\n' :: rest => '\n' :: normalizeCRLF rest
  | ch :: rest => ch :: normalizeCRLF rest

def normalizeNewlines (s : String) : String := ⟨normalizeCRLF s.data⟩

/-- The zod `videoDate` union: a string is transformed via `new Date(str)`, a
`Date` passes through, `null` stays `null`. -/
def parseDateInput : DateInput → Option DateV
  | .str s => some (DateV.ofString s)
  | .date d => some d
  | .null => none

/-- The field-level issues collected by the base object parse of
`insertVideoSchema`, in the schema's field order. `z.string().min(1, msg)`
fails exactly on the empty string; `z.number().min(0)` fails on negatives. -/
def fieldIssues (c : Candidate) : List Issue :=
  (if c.title.length < 1 then [⟨["title"], "Title is required"⟩] else []) ++
  (if c.description.length < 1 then [⟨["description"], "Description is required"⟩] else []) ++
  (if c.thumbnail.length < 1 then [⟨["thumbnail"], "Thumbnail URL is required"⟩] else []) ++
  (if c.platform.length < 1 then [⟨["platform"], "Platform is required"⟩] else []) ++
  (if c.duration < 0 then [⟨["duration"], "Number must be greater than or equal to 0"⟩] else []) ++
  (if c.transcript.length < 1 then [⟨["transcript"], "Transcript is required"⟩] else [])

def missingSourceMessage : String := "Either URL or video file must be provided"

/-- The value the base object parse of `insertVideoSchema` constructs for a
well-shaped candidate (`transcript` transformed, `videoDate` parsed).  Since
every key is present and well typed, the parse is at worst dirty, never
aborted, so this value exists even when field checks fail and is what the
refinements receive. -/
def parseValue (c : Candidate) : InsertVideo :=
  { title := c.title, description := c.description, url := c.url,
    videoData := c.videoData, thumbnail := c.thumbnail,
    platform := c.platform, duration := c.duration,
    transcript := normalizeNewlines c.transcript, tags := c.tags,
    videoDate := parseDateInput c.videoDate }

/-- Every issue `insertVideoSchema.parse` reports for a well-shaped candidate:
the field-level issues, then — because the parse is never aborted for such a
candidate — the object-level `.refine` issue demanding at least one media
source, appended after them. -/
def insertVideoSchemaIssues (c : Candidate) : List Issue :=
  fieldIssues c ++
    (if c.url = none ∧ c.videoData = none then [⟨[], missingSourceMessage⟩]
     else [])

/-- `insertVideoSchema.parse`: the transformed record when every check passed,
otherwise all collected issues. -/
def insertVideoSchemaParse (c : Candidate) : Except (List Issue) InsertVideo :=
  if insertVideoSchemaIssues c = [] then .ok (parseValue c)
  else .error (insertVideoSchemaIssues c)

/-- The lowercase image extensions of the pattern
`/\.(jpg|jpeg|png|webp)(\?.*)?$/i`. -/
def imageExts : List (List Char) :=
  [".jpg".data, ".jpeg".data, ".png".data, ".webp".data]

/-- Does `t` start with `ext` followed by nothing or by a query string? -/
def extHere (ext t : List Char) : Bool :=
  match ext, t with
  | [], [] => true
  | [], '?' :: _ => true
  | [], _ => false
  | _ :: _, [] => false
  | e :: es, c :: cs => e == c && extHere es cs

/-- Scan every position of `t` for an image extension ending the name part. -/
def scanExts : List Char → Bool
  | [] => false
  | c :: rest => imageExts.any (fun e => extHere e (c :: rest)) || scanExts rest

/-- `thumbnail.match(/\.(jpg|jpeg|png|webp)(\?.*)?$/i)` as a Boolean. -/
def thumbnailMatches (s : String) : Bool :=
  scanExts (s.data.map Char.toLower)

/-- The issues the client `formSchema.superRefine` adds on the validated
record: `ReactPlayer.canPlay` (an external library predicate, passed as a
parameter) gates the URL, and the image-extension pattern gates the thumbnail.
JavaScript truthiness makes both checks skip empty strings. -/
def formSchemaIssues (canPlay : String → Bool) (v : InsertVideo) : List Issue :=
  (match v.url with
   | some u =>
     if u ≠ "" ∧ canPlay u = false then
       [⟨["url"], "Must be a valid YouTube, Vimeo, or MP4 URL"⟩]
     else []
   | none => []) ++
  (if v.thumbnail ≠ "" ∧ thumbnailMatches v.thumbnail = false then
     [⟨["thumbnail"], "Must be a valid image URL (JPG, PNG, or WebP)"⟩]
   else [])

/-- The client-side `formSchema.parse`: a well-shaped candidate's inner
`insertVideoSchema` parse is never aborted, so the `superRefine` always runs on
the parsed value and its issues are appended after the inner ones. -/
def formSchemaParse (canPlay : String → Bool) (c : Candidate) :
    Except (List Issue) InsertVideo :=
  let issues := insertVideoSchemaIssues c ++ formSchemaIssues canPlay (parseValue c)
  if issues = [] then .ok (parseValue c) else .error issues

/-- An otherwise-valid candidate with no media source and an empty title. -/
def candNoSourceEmptyTitle : Candidate :=
  { title := "", description := "D", url := none, videoData := none,
    thumbnail := "http://x/a.png", platform := "youtube", duration := 120,
    transcript := "X", tags := ["ai"], videoDate := .null }

/-- Scenario B: a valid candidate with no URL and no upload payload. -/
def candNoSource : Candidate :=
  { title := "T", description := "D", url := none, videoData := none,
    thumbnail := "http://x/a.png", platform := "youtube", duration := 120,
    transcript := "X", tags := ["ai"], videoDate := .null }

/-- A valid candidate whose transcript contains a CRLF pair. -/
def candCRLF : Candidate :=
  { title := "T", description := "D", url := some "https://youtube.com/watch?v=abc",
    videoData := none, thumbnail := "http://x/a.png", platform := "youtube",
    duration := 120, transcript := "a\r\nb", tags := ["ai"], videoDate := .null }

/-- The record `insertVideoSchema` produces for `candCRLF` (transcript
normalized to LF). -/
def candCRLFParsed : InsertVideo :=
  { title := "T", description := "D", url := some "https://youtube.com/watch?v=abc",
    videoData := none, thumbnail := "http://x/a.png", platform := "youtube",
    duration := 120, transcript := "a\nb", tags := ["ai"], videoDate := none }

/-- Scenario C: a valid candidate with a `.gif` thumbnail. -/
def candGif : Candidate :=
  { title := "T", description := "D", url := some "https://youtube.com/watch?v=abc",
    videoData := none, thumbnail := "http://x/a.gif", platform := "youtube",
    duration := 120, transcript := "X", tags := ["ai"], videoDate := .null }

/-- The record `insertVideoSchema` produces for `candGif`. -/
def candGifParsed : InsertVideo :=
  { title := "T", description := "D", url := some "https://youtube.com/watch?v=abc",
    videoData := none, thumbnail := "http://x/a.gif", platform := "youtube",
    duration := 120, transcript := "X", tags := ["ai"], videoDate := none }

def thumbnailIssue : Issue :=
  ⟨["thumbnail"], "Must be a valid image URL (JPG, PNG, or WebP)"⟩

/-! ## Ingestion orchestrator (`DatabaseStorage`, `server/storage.ts`)

The Record Store and the Blob Store are the two external collaborators
(spec section 6); we model their shared state explicitly as row and blob
lists, and their failure modes as error injections in `StoreEnv`.
`supabase.storage.getPublicUrl` is, per the spec, a synchronous pure function
of the path that always succeeds.  Each storage method becomes a function from
the state to `Except` (a thrown error) of result times new state.
-/

/-- A persisted `videos` row (snake-case columns, as in the table). -/
structure DbVideo where
  id : Nat
  title : String
  description : String
  url : Option String
  video_data : Option String
  thumbnail : String
  platform : String
  duration : Int
  transcript : String
  tags : List String
  video_date : Option String
deriving DecidableEq

/-- One stored blob: its path and its decoded bytes. -/
structure BlobEntry where
  path : String
  bytes : List Nat
deriving DecidableEq

/-- The combined external state: Record Store rows, Blob Store blobs, and the
row id the store will assign next. -/
structure StoreState where
  rows : List DbVideo
  blobs : List BlobEntry
  nextId : Nat
deriving DecidableEq

/-- Error injection for the external collaborators: `some msg` makes the
corresponding store call fail with that message. -/
structure StoreEnv where
  uploadError : Option String
  insertError : Option String
  updateError : Option String
  deleteError : Option String
  removeError : Option String
  selectError : Option String
deriving DecidableEq

/-- The all-stores-healthy environment. -/
def StoreEnv.ok : StoreEnv := ⟨none, none, none, none, none, none⟩

/-- The object shape the storage methods return to the routes:
the row spread plus the camel-case `videoDate` mapping; on the upload branch
`url` is replaced by the public URL and `videoData` cleared. -/
structure Video where
  id : Nat
  title : String
  description : String
  url : Option String
  videoData : Option String
  thumbnail : String
  platform : String
  duration : Int
  transcript : String
  tags : List String
  videoDate : Option String
deriving DecidableEq

/-- `{...video, videoDate: video.video_date}`. -/
def rowToVideo (r : DbVideo) : Video :=
  { id := r.id, title := r.title, description := r.description, url := r.url,
    videoData := r.video_data, thumbnail := r.thumbnail, platform := r.platform,
    duration := r.duration, transcript := r.transcript, tags := r.tags,
    videoDate := r.video_date }

/-- `supabase.storage.from(BUCKET_NAME).getPublicUrl(path)`: modelled, per spec
section 6, as a pure function of the path that always succeeds. -/
def getPublicUrl (path : String) : String :=
  "https://storage.example.test/object/public/videos/" ++ path

/-- `Buffer.from(data, 'base64')`: the decoded bytes of the payload (for a
payload that is valid base64; Node's lenient decoder is modelled by the strict
one with an empty-list default, which no claim depends on). -/
def bufferFromBase64 (s : String) : List Nat := (decodeB64 s.data).getD []

/-- The fresh storage path `uploads/${Date.now()}-${filename}`; the current
time is passed in as `now`. -/
def mkUploadPath (now : Nat) (filename : String) : String :=
  "uploads/" ++ toString now ++ "-" ++ filename

/-- `getVideo` (`storage.ts`): select the row by id and, for an uploaded video
with a stored path, substitute the Blob Store public URL.  The state is
returned unchanged — the read path performs no write. -/
def getVideo (env : StoreEnv) (id : Nat) (st : StoreState) :
    Except String (Option Video × StoreState) :=
  match env.selectError with
  | some e => .error e
  | none =>
    match st.rows.find? (fun r => r.id == id) with
    | none => .ok (none, st)
    | some video =>
      match video.video_data with
      | some path =>
        if video.platform == "upload" ∧ path ≠ "" then
          .ok (some { rowToVideo video with
                        url := some (getPublicUrl path), videoData := none }, st)
        else .ok (some (rowToVideo video), st)
      | none => .ok (some (rowToVideo video), st)

/-- `createVideo` (`storage.ts`): if an upload payload is present, decode it
and write the blob under a fresh time-prefixed path; then insert the row with
`video_data` set to that path (or `null`); finally return the row, with the
public URL substituted for uploaded videos. -/
def createVideo (env : StoreEnv) (now : Nat) (v : InsertVideo) (st : StoreState) :
    Except String (Video × StoreState) :=
  let uploadStep : Except String (Option String × StoreState) :=
    match v.videoData with
    | some payload =>
      match env.uploadError with
      | some e => .error ("Failed to upload video: " ++ e)
      | none =>
        let path := mkUploadPath now payload.filename
        .ok (some path,
          { st with blobs := st.blobs ++ [⟨path, bufferFromBase64 payload.data⟩] })
    | none => .ok (none, st)
  match uploadStep with
  | .error e => .error e
  | .ok (videoPath, st1) =>
    match env.insertError with
    | some e => .error e
    | none =>
      let row : DbVideo :=
        { id := st1.nextId, title := v.title, description := v.description,
          url := v.url, video_data := videoPath, thumbnail := v.thumbnail,
          platform := v.platform, duration := v.duration,
          transcript := v.transcript, tags := v.tags,
          video_date := v.videoDate.map toISOString }
      let st2 := { st1 with rows := st1.rows ++ [row], nextId := st1.nextId + 1 }
      match row.video_data with
      | some path =>
        if row.platform == "upload" ∧ path ≠ "" then
          .ok ({ rowToVideo row with
                   url := some (getPublicUrl path), videoData := none }, st2)
        else .ok (rowToVideo row, st2)
      | none => .ok (rowToVideo row, st2)

/-- A partial update submission: `some` marks a key present in the request
body (for the nullable fields the inner option is the `null` value). -/
structure UpdateVideo where
  title : Option String
  description : Option String
  url : Option (Option String)
  videoData : Option (Option VideoDataPayload)
  thumbnail : Option String
  platform : Option String
  duration : Option Int
  transcript : Option String
  tags : Option (List String)
  videoDate : Option (Option DateV)
deriving DecidableEq

/-- The update submission whose only supplied key is `videoDate`. -/
def onlyVideoDate (d : Option DateV) : UpdateVideo :=
  ⟨none, none, none, none, none, none, none, none, none, some d⟩

/-- The `dbVideo` object `updateVideo` accumulates: one entry per column that
will be written. -/
structure Patch where
  title : Option String
  description : Option String
  url : Option (Option String)
  video_data : Option String
  thumbnail : Option String
  platform : Option String
  duration : Option Int
  transcript : Option String
  tags : Option (List String)
  video_date : Option (Option String)
deriving DecidableEq

/-- `Object.keys(dbVideo).length === 0` at the early-return check — evaluated
BEFORE `video_date` is added to the patch, so only the nine other columns
count. -/
def Patch.emptyAtCheck (p : Patch) : Bool :=
  p.title.isNone && p.description.isNone && p.url.isNone &&
    p.video_data.isNone && p.thumbnail.isNone && p.platform.isNone &&
    p.duration.isNone && p.transcript.isNone && p.tags.isNone

/-- Apply a patch to a row, column by column. -/
def applyPatch (p : Patch) (r : DbVideo) : DbVideo :=
  { r with
    title := p.title.getD r.title,
    description := p.description.getD r.description,
    url := p.url.getD r.url,
    video_data := match p.video_data with
                  | some path => some path
                  | none => r.video_data,
    thumbnail := p.thumbnail.getD r.thumbnail,
    platform := p.platform.getD r.platform,
    duration := p.duration.getD r.duration,
    transcript := p.transcript.getD r.transcript,
    tags := p.tags.getD r.tags,
    video_date := p.video_date.getD r.video_date }

/-- `updateVideo` (`storage.ts`): fetch the existing row; if a (non-null)
upload payload was supplied, write a new blob under a fresh path; build the
patch; return the existing row untouched when the patch is empty at the check
(which ignores `video_date`); otherwise add `video_date` when supplied, write
the patch, and return the updated row (public URL substituted for uploads). -/
def updateVideo (env : StoreEnv) (now : Nat) (id : Nat) (u : UpdateVideo)
    (st : StoreState) : Except String (Option Video × StoreState) :=
  match env.selectError with
  | some e => .error e
  | none =>
  match st.rows.find? (fun r => r.id == id) with
  | none => .ok (none, st)
  | some existing =>
    let uploadStep : Except String (Option String × StoreState) :=
      match u.videoData with
      | some (some payload) =>
        match env.uploadError with
        | some e => .error ("Failed to upload video: " ++ e)
        | none =>
          let path := mkUploadPath now payload.filename
          .ok (some path,
            { st with blobs := st.blobs ++ [⟨path, bufferFromBase64 payload.data⟩] })
      | _ => .ok (none, st)
    match uploadStep with
    | .error e => .error e
    | .ok (videoPath, st1) =>
      let patch0 : Patch :=
        { title := u.title, description := u.description, url := u.url,
          video_data := videoPath, thumbnail := u.thumbnail,
          platform := u.platform, duration := u.duration,
          transcript := u.transcript, tags := u.tags, video_date := none }
      if patch0.emptyAtCheck then .ok (some (rowToVideo existing), st1)
      else
        match env.updateError with
        | some e => .error e
        | none =>
          let patch : Patch :=
            { patch0 with
                video_date := u.videoDate.map (fun od => od.map toISOString) }
          let newRows := st1.rows.map
            (fun r => if r.id == id then applyPatch patch r else r)
          let st2 := { st1 with rows := newRows }
          match (newRows.filter (fun r => r.id == id)).head? with
          | some video =>
            match video.video_data with
            | some path =>
              if video.platform == "upload" ∧ path ≠ "" then
                .ok (some { rowToVideo video with
                              url := some (getPublicUrl path), videoData := none }, st2)
              else .ok (some (rowToVideo video), st2)
            | none => .ok (some (rowToVideo video), st2)
          | none => .ok (none, st2)

/-- `deleteVideo` (`storage.ts`): fetch the row; for an uploaded video attempt
the Blob Store removal, continuing on failure (the error is only logged); then
delete the row and report whether a row was removed. -/
def deleteVideo (env : StoreEnv) (id : Nat) (st : StoreState) :
    Except String (Bool × StoreState) :=
  match env.selectError with
  | some e => .error e
  | none =>
  match st.rows.find? (fun r => r.id == id) with
  | none => .ok (false, st)
  | some video =>
    let st1 : StoreState :=
      match video.video_data with
      | some path =>
        if video.platform == "upload" ∧ path ≠ "" then
          match env.removeError with
          | some _ => st
          | none => { st with blobs := st.blobs.filter (fun b => b.path != path) }
        else st
      | none => st
    match env.deleteError with
    | some e => .error e
    | none =>
      .ok (!(st1.rows.filter (fun r => r.id == id)).isEmpty,
        { st1 with rows := st1.rows.filter (fun r => r.id != id) })

/-- A one-row store holding an uploaded video, used by the witnesses. -/
def uploadRow : DbVideo :=
  { id := 1, title := "T", description := "D", url := none,
    video_data := some "uploads/100-f.mp4", thumbnail := "http://x/a.png",
    platform := "upload", duration := 120, transcript := "X", tags := ["ai"],
    video_date := none }

/-- A store state with the single uploaded row and its blob. -/
def uploadState : StoreState :=
  { rows := [uploadRow], blobs := [⟨"uploads/100-f.mp4", [0, 1, 2]⟩], nextId := 2 }

/-- The resolved record `getVideo` returns for `uploadRow`. -/
def uploadResolved : Video :=
  { rowToVideo uploadRow with
      url := some (getPublicUrl "uploads/100-f.mp4"), videoData := none }

/-- A create submission carrying an upload payload (`QUJD` is base64 for the
bytes of `ABC`). -/
def uploadInsert : InsertVideo :=
  { title := "T", description := "D", url := none,
    videoData := some ⟨"QUJD", "f.mp4"⟩, thumbnail := "http://x/a.png",
    platform := "upload", duration := 120, transcript := "X", tags := ["ai"],
    videoDate := none }

/-- An update submission carrying a new upload payload and nothing else. -/
def uploadUpdate : UpdateVideo :=
  ⟨none, none, none, some (some ⟨"QUJD", "g.mp4"⟩), none, none, none, none,
    none, none⟩

/-- The environment in which only the Blob Store removal fails. -/
def removeFailEnv : StoreEnv := ⟨none, none, none, none, some "boom", none⟩

/-! ### Base64 helper lemmas -/

theorem b64Index_b64Char {n : Nat} (h : n < 64) : b64Index (b64Char n) = some n := by
  have key : ∀ m : Fin 64, b64Index (b64Char m.val) = some m.val := by decide
  exact key ⟨n, h⟩

theorem b64Char_ne_pad {n : Nat} (h : n < 64) : b64Char n ≠ '=' := by
  have key : ∀ m : Fin 64, b64Char m.val ≠ '=' := by decide
  exact key ⟨n, h⟩

theorem enc1_lt (a : Nat) : enc1 a < 64 := by unfold enc1; omega

theorem enc2_lt (a b : Nat) : enc2 a b < 64 := by unfold enc2; omega

theorem enc3_lt (b c : Nat) : enc3 b c < 64 := by unfold enc3; omega

theorem enc4_lt (c : Nat) : enc4 c < 64 := by unfold enc4; omega

/-- A base64 encoding of a block whose byte count is `≡ 2 (mod 3)` ends in a `=`
pad character, so appending any further characters after it yields a stream the
strict decoder rejects. -/
theorem decodeB64_encode_mod2_append (l : List Nat) (suffix : List Char)
    (h2 : l.length % 3 = 2) (hs : suffix ≠ []) :
    decodeB64 (encodeB64 l ++ suffix) = none := by
  induction l using encodeB64.induct with
  | case1 => simp at h2
  | case2 a => simp at h2
  | case3 a b =>
    have i1 := b64Index_b64Char (enc1_lt a)
    have i2 := b64Index_b64Char (enc2_lt a b)
    have h3lt : b % 16 * 4 < 64 := by omega
    have i3 := b64Index_b64Char h3lt
    have ne3 := b64Char_ne_pad h3lt
    simp [encodeB64, decodeB64, i1, i2, i3, ne3, hs]
  | case4 a b c rest ih =>
    have hrest : rest.length % 3 = 2 := by
      simp only [List.length_cons] at h2; omega
    have i1 := b64Index_b64Char (enc1_lt a)
    have i2 := b64Index_b64Char (enc2_lt a b)
    have i3 := b64Index_b64Char (enc3_lt b c)
    have i4 := b64Index_b64Char (enc4_lt c)
    have ne3 := b64Char_ne_pad (enc3_lt b c)
    have ne4 := b64Char_ne_pad (enc4_lt c)
    simp [encodeB64, decodeB64, i1, i2, i3, i4, ne3, ne4, ih hrest]

/-- Base64 round trip: the strict decoder inverts the padded encoder on every
byte list. -/
theorem decodeB64_encodeB64 (l : List Nat) (hl : ∀ x ∈ l, x < 256) :
    decodeB64 (encodeB64 l) = some l := by
  induction l using encodeB64.induct with
  | case1 => rfl
  | case2 a =>
    have ha : a < 256 := hl a (by simp)
    have i1 := b64Index_b64Char (enc1_lt a)
    have h2lt : a % 4 * 16 < 64 := by omega
    have i2 := b64Index_b64Char h2lt
    simp [encodeB64, decodeB64, i1, i2]
    simp only [enc1]
    omega
  | case3 a b =>
    have ha : a < 256 := hl a (by simp)
    have hb : b < 256 := hl b (by simp)
    have i1 := b64Index_b64Char (enc1_lt a)
    have i2 := b64Index_b64Char (enc2_lt a b)
    have h3lt : b % 16 * 4 < 64 := by omega
    have i3 := b64Index_b64Char h3lt
    have ne3 := b64Char_ne_pad h3lt
    simp [encodeB64, decodeB64, i1, i2, i3, ne3]
    simp only [enc1, enc2]
    omega
  | case4 a b c rest ih =>
    have ha : a < 256 := hl a (by simp)
    have hb : b < 256 := hl b (by simp)
    have hc : c < 256 := hl c (by simp)
    have hrest : ∀ x ∈ rest, x < 256 := fun x hx => hl x (by simp [hx])
    have i1 := b64Index_b64Char (enc1_lt a)
    have i2 := b64Index_b64Char (enc2_lt a b)
    have i3 := b64Index_b64Char (enc3_lt b c)
    have i4 := b64Index_b64Char (enc4_lt c)
    have ne3 := b64Char_ne_pad (enc3_lt b c)
    have ne4 := b64Char_ne_pad (enc4_lt c)
    simp [encodeB64, decodeB64, i1, i2, i3, i4, ne3, ne4, ih hrest]
    simp only [enc1, enc2, enc3, enc4]
    omega

/-- Files of at most one chunk are unaffected by the concatenation flaw: their
payload is a single valid base64 block and decodes back to the file. -/
theorem encodeFileChunks_single_chunk_roundtrip (file : List Nat)
    (hb : ∀ x ∈ file, x < 256) (hlen : file.length ≤ CHUNK_SIZE) :
    decodeB64 (encodeFileChunks file) = some file := by
  rw [encodeFileChunks, dif_neg (by omega)]
  exact decodeB64_encodeB64 file hb

theorem twoChunkFile_step :
    encodeFileChunks twoChunkFile
      = encodeB64 (List.replicate CHUNK_SIZE 0) ++ encodeB64 [0] := by
  have hcond : CHUNK_SIZE < twoChunkFile.length := by
    simp [twoChunkFile]
  rw [encodeFileChunks, dif_pos hcond]
  have htake : twoChunkFile.take CHUNK_SIZE = List.replicate CHUNK_SIZE 0 := by
    rw [twoChunkFile, List.take_replicate]
    congr 1
  have hdrop : twoChunkFile.drop CHUNK_SIZE = [0] := by
    rw [twoChunkFile, List.drop_replicate]
    have h1 : CHUNK_SIZE + 1 - CHUNK_SIZE = 1 := by omega
    rw [h1, List.replicate_one]
  have hone : encodeFileChunks [0] = encodeB64 [0] := by
    rw [encodeFileChunks,
      dif_neg (show ¬ CHUNK_SIZE < ([0] : List Nat).length by simp [CHUNK_SIZE])]
  rw [htake, hdrop, hone]

/-- **C1.** The chunked-upload round trip fails as soon as a file spans more
than one chunk: for the 2 MiB + 1-byte file, the `encodedData` payload emitted
by `handleFileChange` is the concatenation of two independently padded base64
chunk encodings (`CHUNK_SIZE % 3 = 2`, so the first chunk's encoding ends in
`=`), and base64-decoding that payload does not yield the original bytes — the
payload is not a valid base64 string at all. -/
theorem chunked_payload_two_chunks_not_base64 :
    decodeB64 (encodeFileChunks twoChunkFile) = none := by
  rw [twoChunkFile_step]
  apply decodeB64_encode_mod2_append
  · simp only [List.length_replicate]
    decide
  · simp [encodeB64]

/-! ### Progress emission theorems -/

theorem numChunks_pos {size : Nat} (hs : 0 < size) : 0 < numChunks size := by
  unfold numChunks CHUNK_SIZE
  omega

/-- **C7 (amended).** For every non-empty file, the progress values emitted by
the chunked encoder are non-decreasing, each lies in `[0, 100]`, and the final
value is exactly `100`: the encoder reports percentages, not fractions in
`[0, 1]` (and for the empty file the single emitted value is `(1/0) * 100`,
which is not a number at all in JavaScript). -/
theorem progressEmits_monotone_percent (size : Nat) (hs : 0 < size) :
    (progressEmits size).Chain' (· ≤ ·) ∧
      (∀ v ∈ progressEmits size, 0 ≤ v ∧ v ≤ 100) ∧
      (progressEmits size).getLast? = some 100 := by
  have hn : 0 < numChunks size := numChunks_pos hs
  have hmax : max (numChunks size) 1 = numChunks size := by omega
  have hnq : (0 : ℚ) < (numChunks size : ℚ) := by exact_mod_cast hn
  refine ⟨?_, ?_, ?_⟩
  · rw [progressEmits, hmax]
    apply List.Pairwise.chain'
    rw [List.pairwise_map]
    apply (List.pairwise_lt_range (numChunks size)).imp
    intro i j hij
    have hle : ((i : ℚ) + 1) / (numChunks size : ℚ) ≤ ((j : ℚ) + 1) / (numChunks size : ℚ) := by
      apply div_le_div_of_nonneg_right _ hnq.le
      have : (i : ℚ) ≤ (j : ℚ) := by exact_mod_cast hij.le
      linarith
    have := mul_le_mul_of_nonneg_right hle (show (0 : ℚ) ≤ 100 by norm_num)
    simpa using this
  · intro v hv
    rw [progressEmits, hmax] at hv
    obtain ⟨i, hi, rfl⟩ := List.mem_map.mp hv
    rw [List.mem_range] at hi
    constructor
    · positivity
    · have h1 : ((i : ℚ) + 1) / (numChunks size : ℚ) ≤ 1 := by
        rw [div_le_one hnq]
        exact_mod_cast Nat.succ_le_of_lt hi
      calc ((i : ℚ) + 1) / (numChunks size : ℚ) * 100
          ≤ 1 * 100 := mul_le_mul_of_nonneg_right h1 (by norm_num)
        _ = 100 := by norm_num
  · obtain ⟨m, hm⟩ : ∃ m, numChunks size = m + 1 := ⟨numChunks size - 1, by omega⟩
    rw [progressEmits, hmax, hm, List.range_succ, List.map_append, List.map_cons,
      List.map_nil, List.getLast?_concat]
    congr 1
    have hne : ((m : ℚ) + 1) ≠ 0 := by positivity
    push_cast
    rw [div_self hne, one_mul]

/-- Witness for `progressEmits_monotone_percent` at a one-byte file. -/
theorem progressEmits_monotone_percent_witness :
    0 < 1 ∧
      ((progressEmits 1).Chain' (· ≤ ·) ∧
        (∀ v ∈ progressEmits 1, 0 ≤ v ∧ v ≤ 100) ∧
        (progressEmits 1).getLast? = some 100) :=
  ⟨by decide, progressEmits_monotone_percent 1 (by decide)⟩

/-- **C7 (counterexample).** For the one-byte file the single emitted progress
value is `100`, not a fraction in `[0, 1]` ending at `1.0` as the claim
states. -/
theorem progressEmits_one_byte_is_100 :
    progressEmits 1 = [(100 : ℚ)] ∧ ¬ ((100 : ℚ) ≤ 1) := by
  constructor
  · have h1 : numChunks 1 = 1 := by unfold numChunks CHUNK_SIZE; omega
    rw [progressEmits, h1]
    rw [show (1 : Nat) ⊔ 1 = 1 from rfl, show List.range 1 = [0] from rfl]
    norm_num
  · norm_num


/-! ### Validator theorems -/

/-- **C4 (counterexample).** A candidate with both media sources absent and an
empty title is rejected with two violations — the empty-title field issue and
the missing-media-source refinement issue (the `.refine` still runs on this
dirty parse) — not with "exactly one violation identifying the missing media
source" as the claim states for every such candidate. -/
theorem missing_source_rejection_not_single_source_violation :
    insertVideoSchemaParse candNoSourceEmptyTitle
        = .error [⟨["title"], "Title is required"⟩, ⟨[], missingSourceMessage⟩] ∧
      ([⟨["title"], "Title is required"⟩, ⟨[], missingSourceMessage⟩] : List Issue)
        ≠ [⟨[], missingSourceMessage⟩] :=
  ⟨rfl, by decide⟩

/-- **C4 (amended).** For every candidate with neither `url` nor `videoData`,
`insertVideoSchema` rejects and the violations always include the object-level
missing-media-source refinement violation; when every field-level check also
passes it is the only violation. -/
theorem missing_source_single_violation (c : Candidate)
    (hu : c.url = none) (hv : c.videoData = none) :
    ∃ issues, insertVideoSchemaParse c = .error issues ∧
      (⟨[], missingSourceMessage⟩ : Issue) ∈ issues ∧
      (fieldIssues c = [] → issues = [⟨[], missingSourceMessage⟩]) := by
  have hifs : insertVideoSchemaIssues c
      = fieldIssues c ++ [⟨[], missingSourceMessage⟩] := by
    unfold insertVideoSchemaIssues
    rw [if_pos ⟨hu, hv⟩]
  have hne : insertVideoSchemaIssues c ≠ [] := by
    rw [hifs]; simp
  unfold insertVideoSchemaParse
  rw [if_neg hne]
  refine ⟨_, rfl, ?_, ?_⟩
  · rw [hifs]
    exact List.mem_append_right _ (List.mem_singleton.mpr rfl)
  · intro hf
    rw [hifs, hf, List.nil_append]

/-- Witness for `missing_source_single_violation` at `candNoSource`. -/
theorem missing_source_single_violation_witness :
    candNoSource.url = none ∧ candNoSource.videoData = none ∧
      (∃ issues, insertVideoSchemaParse candNoSource = .error issues ∧
        (⟨[], missingSourceMessage⟩ : Issue) ∈ issues ∧
        (fieldIssues candNoSource = [] →
          issues = [⟨[], missingSourceMessage⟩])) :=
  ⟨rfl, rfl, missing_source_single_violation candNoSource rfl rfl⟩

/-- **C5 (counterexample).** The validator does not return every field
unchanged: a transcript containing a CRLF pair comes back with the pair
normalized to a bare LF. -/
theorem validator_changes_crlf_transcript :
    insertVideoSchemaParse candCRLF = .ok candCRLFParsed ∧
      candCRLFParsed.transcript ≠ candCRLF.transcript := by
  constructor
  · rfl
  · decide

/-- **C5 (amended).** For every candidate that passes validation, the output
record agrees with the input on every field except the two transformed ones:
`transcript` has CRLF sequences normalized to LF, and `videoDate` is the parsed
date (a string becomes a `Date`; a `Date` or `null` passes through). -/
theorem validator_output_fields (c : Candidate)
    (hf : fieldIssues c = []) (hsrc : ¬ (c.url = none ∧ c.videoData = none)) :
    ∃ v, insertVideoSchemaParse c = .ok v ∧
      v.title = c.title ∧ v.description = c.description ∧ v.url = c.url ∧
      v.videoData = c.videoData ∧ v.thumbnail = c.thumbnail ∧
      v.platform = c.platform ∧ v.duration = c.duration ∧ v.tags = c.tags ∧
      v.transcript = normalizeNewlines c.transcript ∧
      v.videoDate = parseDateInput c.videoDate := by
  have hi : insertVideoSchemaIssues c = [] := by
    simp [insertVideoSchemaIssues, hf, hsrc]
  have h : insertVideoSchemaParse c = .ok (parseValue c) := by
    unfold insertVideoSchemaParse
    rw [if_pos hi]
  exact ⟨_, h, rfl, rfl, rfl, rfl, rfl, rfl, rfl, rfl, rfl, rfl⟩

/-- Witness for `validator_output_fields` at `candCRLF`. -/
theorem validator_output_fields_witness :
    fieldIssues candCRLF = [] ∧ ¬ (candCRLF.url = none ∧ candCRLF.videoData = none) ∧
      (∃ v, insertVideoSchemaParse candCRLF = .ok v ∧
        v.title = candCRLF.title ∧ v.description = candCRLF.description ∧
        v.url = candCRLF.url ∧ v.videoData = candCRLF.videoData ∧
        v.thumbnail = candCRLF.thumbnail ∧ v.platform = candCRLF.platform ∧
        v.duration = candCRLF.duration ∧ v.tags = candCRLF.tags ∧
        v.transcript = normalizeNewlines candCRLF.transcript ∧
        v.videoDate = parseDateInput candCRLF.videoDate) :=
  ⟨by decide, by decide,
    validator_output_fields candCRLF (by decide) (by decide)⟩

/-- **C6 (counterexample).** The validator that gates persistence
(`insertVideoSchema`, the schema the create route parses with) accepts the
Scenario C submission whose thumbnail is `http://x/a.gif`: it checks only that
the thumbnail is non-empty, so no violation identifying `thumbnail` is
raised on the write path. -/
theorem persistence_validator_accepts_gif_thumbnail :
    insertVideoSchemaParse candGif = .ok candGifParsed ∧
      thumbnailMatches candGif.thumbnail = false := by
  constructor
  · rfl
  · decide

/-- **C6 (amended).** The image-extension check lives in the client-side
`formSchema`: whenever the base schema accepts a record whose non-empty
thumbnail fails the `.jpg|.jpeg|.png|.webp` pattern, `formSchema` rejects it
with a violation identifying `thumbnail` (for any behavior of the external
`ReactPlayer.canPlay` predicate). -/
theorem client_form_rejects_bad_thumbnail (canPlay : String → Bool)
    (c : Candidate) (v : InsertVideo)
    (hok : insertVideoSchemaParse c = .ok v)
    (hth : v.thumbnail ≠ "") (hbad : thumbnailMatches v.thumbnail = false) :
    ∃ issues, formSchemaParse canPlay c = .error issues ∧
      thumbnailIssue ∈ issues := by
  have hiv : insertVideoSchemaIssues c = [] ∧ parseValue c = v := by
    by_cases h : insertVideoSchemaIssues c = []
    · refine ⟨h, ?_⟩
      unfold insertVideoSchemaParse at hok
      rw [if_pos h] at hok
      injection hok
    · unfold insertVideoSchemaParse at hok
      rw [if_neg h] at hok
      exact absurd hok (by simp)
  obtain ⟨hinone, hval⟩ := hiv
  have hmem : thumbnailIssue ∈ formSchemaIssues canPlay v := by
    unfold formSchemaIssues
    apply List.mem_append_right
    rw [if_pos ⟨hth, hbad⟩]
    exact List.mem_singleton.mpr rfl
  have hne : insertVideoSchemaIssues c
      ++ formSchemaIssues canPlay (parseValue c) ≠ [] := by
    rw [hinone, List.nil_append, hval]
    exact List.ne_nil_of_mem hmem
  simp only [formSchemaParse]
  rw [if_neg hne]
  refine ⟨_, rfl, ?_⟩
  rw [hinone, List.nil_append, hval]
  exact hmem

/-- Witness for `client_form_rejects_bad_thumbnail` at `candGif` with a
`canPlay` that accepts everything. -/
theorem client_form_rejects_bad_thumbnail_witness :
    insertVideoSchemaParse candGif = .ok candGifParsed ∧
      candGifParsed.thumbnail ≠ "" ∧
      thumbnailMatches candGifParsed.thumbnail = false ∧
      (∃ issues, formSchemaParse (fun _ => true) candGif = .error issues ∧
        thumbnailIssue ∈ issues) :=
  ⟨rfl, by decide, by decide,
    client_form_rejects_bad_thumbnail (fun _ => true) candGif candGifParsed rfl
      (by decide) (by decide)⟩

/-! ### Orchestrator theorems -/

/-- **C2.** For every create submission carrying an upload payload (and healthy
stores), `createVideo` writes the decoded bytes to the Blob Store under the
fresh time-prefixed path and then persists the row with `video_data` equal to
that path — the raw base64 payload is never what the persisted row holds. -/
theorem createVideo_upload_persists_path (env : StoreEnv) (now : Nat)
    (v : InsertVideo) (st : StoreState) (p : VideoDataPayload)
    (hp : v.videoData = some p) (h1 : env.uploadError = none)
    (h2 : env.insertError = none) :
    ∃ video st₂ row,
      createVideo env now v st = .ok (video, st₂) ∧
      st₂.blobs = st.blobs ++
        [⟨mkUploadPath now p.filename, bufferFromBase64 p.data⟩] ∧
      st₂.rows = st.rows ++ [row] ∧
      row.video_data = some (mkUploadPath now p.filename) := by
  simp only [createVideo, hp, h1, h2]
  split
  · exact ⟨_, _, _, rfl, rfl, rfl, rfl⟩
  · exact ⟨_, _, _, rfl, rfl, rfl, rfl⟩

/-- Witness for `createVideo_upload_persists_path` on an empty store. -/
theorem createVideo_upload_persists_path_witness :
    uploadInsert.videoData = some ⟨"QUJD", "f.mp4"⟩ ∧
      StoreEnv.ok.uploadError = none ∧ StoreEnv.ok.insertError = none ∧
      (∃ video st₂ row,
        createVideo StoreEnv.ok 100 uploadInsert ⟨[], [], 1⟩ = .ok (video, st₂) ∧
        st₂.blobs = ([] : List BlobEntry) ++
          [⟨mkUploadPath 100 "f.mp4", bufferFromBase64 "QUJD"⟩] ∧
        st₂.rows = ([] : List DbVideo) ++ [row] ∧
        row.video_data = some (mkUploadPath 100 "f.mp4")) :=
  ⟨rfl, rfl, rfl,
    createVideo_upload_persists_path StoreEnv.ok 100 uploadInsert ⟨[], [], 1⟩
      ⟨"QUJD", "f.mp4"⟩ rfl rfl rfl⟩

/-- **C3.** Deleting an uploaded video whose Blob Store removal fails still
removes the record row and reports `true`; the failure is never raised to the
caller, and the blob state is left untouched. -/
theorem deleteVideo_blob_failure_still_deletes (env : StoreEnv) (id : Nat)
    (st : StoreState) (video : DbVideo) (err : String)
    (hsel : env.selectError = none) (hdel : env.deleteError = none)
    (hrem : env.removeError = some err)
    (hfind : st.rows.find? (fun r => r.id == id) = some video)
    (hplat : video.platform = "upload")
    (hpath : ∃ p, video.video_data = some p ∧ p ≠ "") :
    ∃ st₂, deleteVideo env id st = .ok (true, st₂) ∧
      st₂.rows = st.rows.filter (fun r => r.id != id) ∧
      st₂.blobs = st.blobs := by
  obtain ⟨p, hp, hpne⟩ := hpath
  have hmem := List.mem_of_find?_eq_some hfind
  have hpred := List.find?_some hfind
  have hfil : video ∈ st.rows.filter (fun r => r.id == id) :=
    List.mem_filter.mpr ⟨hmem, hpred⟩
  have hne : (st.rows.filter (fun r => r.id == id)).isEmpty = false := by
    rcases hfl : st.rows.filter (fun r => r.id == id) with _ | ⟨a, l⟩
    · rw [hfl] at hfil; simp at hfil
    · rw [hfl]; rfl
  have hcond : (video.platform == "upload") = true ∧ p ≠ "" :=
    ⟨by simp [hplat], hpne⟩
  simp only [deleteVideo, hsel, hdel, hrem, hfind, hp, if_pos hcond, hne]
  exact ⟨_, rfl, rfl, rfl⟩

/-- Witness for `deleteVideo_blob_failure_still_deletes` on the one-row store
with a failing Blob Store removal. -/
theorem deleteVideo_blob_failure_still_deletes_witness :
    removeFailEnv.selectError = none ∧ removeFailEnv.deleteError = none ∧
      removeFailEnv.removeError = some "boom" ∧
      uploadState.rows.find? (fun r => r.id == 1) = some uploadRow ∧
      uploadRow.platform = "upload" ∧
      (∃ st₂, deleteVideo removeFailEnv 1 uploadState = .ok (true, st₂) ∧
        st₂.rows = uploadState.rows.filter (fun r => r.id != 1) ∧
        st₂.blobs = uploadState.blobs) :=
  ⟨rfl, rfl, rfl, rfl, rfl,
    deleteVideo_blob_failure_still_deletes removeFailEnv 1 uploadState uploadRow
      "boom" rfl rfl rfl rfl rfl ⟨"uploads/100-f.mp4", rfl, by decide⟩⟩

/-- Every row of the patched row list that carries the updated id has its
`video_data` column set to the patch's path. -/
theorem applyPatch_rows_video_data (patch : Patch) (rows : List DbVideo)
    (id : Nat) (path : String) (hp : patch.video_data = some path) :
    ∀ r ∈ rows.map (fun r => if r.id == id then applyPatch patch r else r),
      r.id = id → r.video_data = some path := by
  intro r hr hid
  obtain ⟨r0, _hr0, heq⟩ := List.mem_map.mp hr
  by_cases h : (r0.id == id) = true
  · rw [if_pos h] at heq
    rw [← heq]
    simp [applyPatch, hp]
  · rw [if_neg h] at heq
    rw [← heq] at hid
    exact absurd (by simp [hid]) h

/-- **C8.** An update supplying a new upload payload writes a new blob under a
fresh path and replaces the row's `video_data` path with the new one; the Blob
Store keeps every previous entry — nothing is ever removed, so the old blob is
orphaned. -/
theorem updateVideo_new_payload_orphans_old_blob (env : StoreEnv) (now id : Nat)
    (u : UpdateVideo) (st : StoreState) (payload : VideoDataPayload)
    (existing : DbVideo)
    (hsel : env.selectError = none) (hup : env.uploadError = none)
    (hupd : env.updateError = none)
    (hfind : st.rows.find? (fun r => r.id == id) = some existing)
    (hpay : u.videoData = some (some payload)) :
    ∃ ret st₂,
      updateVideo env now id u st = .ok (ret, st₂) ∧
      st₂.blobs = st.blobs ++
        [⟨mkUploadPath now payload.filename, bufferFromBase64 payload.data⟩] ∧
      (∀ r ∈ st₂.rows, r.id = id →
        r.video_data = some (mkUploadPath now payload.filename)) := by
  have hnotempty :
      (Patch.emptyAtCheck
        { title := u.title, description := u.description, url := u.url,
          video_data := some (mkUploadPath now payload.filename),
          thumbnail := u.thumbnail, platform := u.platform,
          duration := u.duration, transcript := u.transcript, tags := u.tags,
          video_date := none }) = false := by
    simp [Patch.emptyAtCheck]
  simp only [updateVideo, hsel, hfind, hpay, hup, hnotempty, Bool.false_eq_true,
    if_false, hupd]
  split
  · split
    · split
      · exact ⟨_, _, rfl, rfl, applyPatch_rows_video_data _ _ _ _ rfl⟩
      · exact ⟨_, _, rfl, rfl, applyPatch_rows_video_data _ _ _ _ rfl⟩
    · exact ⟨_, _, rfl, rfl, applyPatch_rows_video_data _ _ _ _ rfl⟩
  · exact ⟨_, _, rfl, rfl, applyPatch_rows_video_data _ _ _ _ rfl⟩

/-- Witness for `updateVideo_new_payload_orphans_old_blob` on the one-row
store: the old blob stays, the new one is appended. -/
theorem updateVideo_new_payload_orphans_old_blob_witness :
    StoreEnv.ok.selectError = none ∧ StoreEnv.ok.uploadError = none ∧
      StoreEnv.ok.updateError = none ∧
      uploadState.rows.find? (fun r => r.id == 1) = some uploadRow ∧
      uploadUpdate.videoData = some (some ⟨"QUJD", "g.mp4"⟩) ∧
      (∃ ret st₂,
        updateVideo StoreEnv.ok 200 1 uploadUpdate uploadState = .ok (ret, st₂) ∧
        st₂.blobs = uploadState.blobs ++
          [⟨mkUploadPath 200 "g.mp4", bufferFromBase64 "QUJD"⟩] ∧
        (∀ r ∈ st₂.rows, r.id = 1 →
          r.video_data = some (mkUploadPath 200 "g.mp4"))) :=
  ⟨rfl, rfl, rfl, rfl, rfl,
    updateVideo_new_payload_orphans_old_blob StoreEnv.ok 200 1 uploadUpdate
      uploadState ⟨"QUJD", "g.mp4"⟩ uploadRow rfl rfl rfl rfl rfl⟩

/-- Any successful `getVideo` call returns the store state unchanged. -/
theorem getVideo_state_eq (env : StoreEnv) (id : Nat) (st : StoreState)
    (r : Option Video × StoreState) (h : getVideo env id st = .ok r) :
    r.2 = st := by
  unfold getVideo at h
  repeat' split at h
  all_goals first
    | (injection h with h2; subst h2; rfl)
    | injection h

/-- **C9.** The read path is idempotent and write-free: a successful
`getVideo` leaves the store state exactly as it was, and calling it again on
that state yields the same resolved record. -/
theorem getVideo_idempotent_read (env : StoreEnv) (id : Nat) (st : StoreState)
    (v : Option Video) (st₂ : StoreState)
    (h : getVideo env id st = .ok (v, st₂)) :
    st₂ = st ∧ getVideo env id st₂ = .ok (v, st₂) := by
  have hst : st₂ = st := getVideo_state_eq env id st (v, st₂) h
  subst hst
  exact ⟨rfl, h⟩

/-- Witness for `getVideo_idempotent_read` on the one-row store. -/
theorem getVideo_idempotent_read_witness :
    getVideo StoreEnv.ok 1 uploadState = .ok (some uploadResolved, uploadState) ∧
      (uploadState = uploadState ∧
        getVideo StoreEnv.ok 1 uploadState = .ok (some uploadResolved, uploadState)) :=
  ⟨rfl, getVideo_idempotent_read StoreEnv.ok 1 uploadState (some uploadResolved)
    uploadState rfl⟩

/-- **C10.** An update whose only supplied field is `videoDate` hits the
empty-patch early return (`video_date` is added only after the emptiness
check): the previously stored row is returned and the store state — rows and
blobs, `video_date` included — is exactly unchanged. -/
theorem updateVideo_only_videoDate_no_write (env : StoreEnv) (now id : Nat)
    (st : StoreState) (d : Option DateV) (existing : DbVideo)
    (hsel : env.selectError = none)
    (hfind : st.rows.find? (fun r => r.id == id) = some existing) :
    updateVideo env now id (onlyVideoDate d) st
      = .ok (some (rowToVideo existing), st) := by
  simp only [updateVideo, hsel, hfind, onlyVideoDate]
  rfl

/-- Witness for `updateVideo_only_videoDate_no_write` on the one-row store. -/
theorem updateVideo_only_videoDate_no_write_witness :
    StoreEnv.ok.selectError = none ∧
      uploadState.rows.find? (fun r => r.id == 1) = some uploadRow ∧
      updateVideo StoreEnv.ok 200 1 (onlyVideoDate (some (DateV.ofEpoch 5)))
          uploadState = .ok (some (rowToVideo uploadRow), uploadState) :=
  ⟨rfl, rfl,
    updateVideo_only_videoDate_no_write StoreEnv.ok 200 1 uploadState
      (some (DateV.ofEpoch 5)) uploadRow rfl rfl⟩

end VidCatalog
